import Mathlib

/-!
Shallow embedding of the trend-sieve pipeline (`src/trend_sieve/`), covering
the data model (`models.py`), the README/license enricher (`enrichers/readme.py`),
the Gemini relevance filter's post-processing (`filters/gemini.py`), the GitHub
trending parser (`sources/github.py`), the Supabase deduplication store
(`storage/supabase.py`), the Slack notifier (`notifiers/slack.py`) and the
scheduler orchestration (`scheduler.py`).

External effects (HTTP fetches, the Gemini call, the Supabase client, the Slack
POST) are modelled as explicit parameters: an `Except Unit` value stands for a
call that either raises (`Except.error ()`) or returns normally, and an
`Option` stands for a sub-fetch that either yields a value or degrades to
`None`.  Python strings are Lean `String`s; Python `int` is Lean `Int`;
Python `dict` lookups are association-list lookups.
-/

deriving instance DecidableEq for Except

namespace TrendSieve

/-! ### Python string / truthiness helpers -/

/-- Python `a or b` where both operands are strings: `a` is falsy iff empty. -/
def pyOrStr (a b : String) : String := if a = "" then b else a

/-- Python `a or b` where `a` is `str | None`: falsy iff `None` or empty. -/
def pyOrOptStr (a : Option String) (b : String) : String :=
  match a with
  | none => b
  | some s => if s = "" then b else s

/-- Python `str.strip()`: remove leading and trailing whitespace. -/
def pyStrip (s : String) : String :=
  String.mk ((s.toList.dropWhile Char.isWhitespace).reverse.dropWhile Char.isWhitespace).reverse

/-- Python `str.lower()` (ASCII case folding suffices for SPDX ids). -/
def pyLower (s : String) : String := String.mk (s.toList.map Char.toLower)

/-- Python `str.replace(",", "")`: drop every comma. -/
def removeCommas (s : String) : String := String.mk (s.toList.filter (fun c => c ≠ ','))

/-- Python `str.strip("/")`: remove leading and trailing slashes. -/
def stripSlashes (s : String) : String :=
  String.mk ((s.toList.dropWhile (fun c => c = '/')).reverse.dropWhile (fun c => c = '/')).reverse

/-- Helper for `pySplitWs`: accumulate the current word (reversed in `acc`). -/
def splitWsAux : List Char → List Char → List String
  | [], acc => if acc = [] then [] else [String.mk acc.reverse]
  | c :: rest, acc =>
    if c.isWhitespace then
      if acc = [] then splitWsAux rest []
      else String.mk acc.reverse :: splitWsAux rest []
    else splitWsAux rest (c :: acc)

/-- Python `str.split()` with no argument: split on whitespace runs, no empty parts. -/
def pySplitWs (s : String) : List String := splitWsAux s.toList []

/-- Tail of a Python decimal integer literal: digits, with single underscores
allowed only between digits (CPython `int()` grammar after the first digit). -/
def pyIntTailOk : List Char → Bool
  | [] => true
  | c :: rest =>
    if c = '_' then
      match rest with
      | [] => false
      | d :: rest2 => d.isDigit && pyIntTailOk rest2
    else c.isDigit && pyIntTailOk rest

/-- Body of a Python decimal integer literal (after an optional sign):
nonempty, starts with a digit. -/
def pyIntBodyOk (cs : List Char) : Bool :=
  match cs with
  | [] => false
  | c :: rest => c.isDigit && pyIntTailOk rest

/-- Numeric value of a digit/underscore sequence, ignoring underscores. -/
def digitsVal (cs : List Char) : Nat :=
  cs.foldl (fun acc c => if c = '_' then acc else acc * 10 + (c.toNat - '0'.toNat)) 0

/-- Python `int(s)` for decimal strings: strips whitespace, accepts an optional
sign followed by digits (underscores between digits); raises `ValueError`
(modelled as `none`) on anything else. -/
def pyInt (s : String) : Option Int :=
  let t := pyStrip s
  match t.toList with
  | '-' :: rest => if pyIntBodyOk rest then some (-(digitsVal rest : Int)) else none
  | '+' :: rest => if pyIntBodyOk rest then some ((digitsVal rest : Int)) else none
  | cs => if pyIntBodyOk cs then some ((digitsVal cs : Int)) else none

/-! ### `models.py` -/

/-- A value in a `TrendItem.metadata` dict (`dict[str, int | str]`; the GitHub
conversion also stores `None` for a missing language). -/
inductive MetaValue where
  | intVal (n : Int)
  | strVal (s : String)
  | nullVal
deriving Repr, DecidableEq

/-- Embeds `models.Repository`. -/
structure Repository where
  name : String
  url : String
  description : Option String := none
  language : Option String := none
  stars : Int := 0
  stars_today : Int := 0
  forks : Int := 0
deriving Repr, DecidableEq

/-- Embeds `models.CodeExample`. -/
structure CodeExample where
  language : String
  code : String
deriving Repr, DecidableEq

/-- Embeds `models.FilteredRepository`. -/
structure FilteredRepository where
  repository : Repository
  relevance_score : Int
  summary : String
  matched_interests : List String := []
  license : Option String := none
  is_open_source : Bool := false
  code_examples : List CodeExample := []
deriving Repr, DecidableEq

/-- Embeds `models.TrendItem`. -/
structure TrendItem where
  source : String
  source_id : String
  title : String
  url : String
  description : Option String := none
  metadata : List (String × MetaValue) := []
  relevance_score : Option Int := none
  summary : Option String := none
  matched_interests : List String := []
  code_example : Option String := none
  license : Option String := none
  is_open_source : Bool := false
deriving Repr, DecidableEq

/-- Embeds `config.Settings.relevance_threshold` default value. -/
def relevance_threshold_default : Int := 6

/-! ### `enrichers/readme.py` -/

/-- Embeds `OPEN_SOURCE_LICENSES` allow-list (a Python `set`, modelled as a list). -/
def OPEN_SOURCE_LICENSES : List String :=
  ["mit", "apache-2.0", "gpl-2.0", "gpl-3.0", "lgpl-2.1", "lgpl-3.0",
   "bsd-2-clause", "bsd-3-clause", "mpl-2.0", "unlicense", "isc",
   "agpl-3.0", "cc0-1.0", "wtfpl", "zlib"]

/-- Embeds `MetadataResult` TypedDict. -/
structure MetadataResult where
  readme : Option String
  license : Option String
  is_open_source : Bool
deriving Repr, DecidableEq

/-- Embeds `ReadmeEnricher._is_open_source`: `if not license_id: return False;
return license_id.lower() in OPEN_SOURCE_LICENSES`. -/
def _is_open_source (license_id : Option String) : Bool :=
  match license_id with
  | none => false
  | some s => if s = "" then false else decide (pyLower s ∈ OPEN_SOURCE_LICENSES)

/-- Embeds `ReadmeEnricher.fetch_metadata`, with the two sub-fetch outcomes
(`_fetch_readme`, `_fetch_license`) supplied as functions from repo name to
their returned value (`none` models a failed or empty sub-fetch: both helpers
catch `httpx.RequestError` and return `None`). -/
def fetch_metadata (readmeRes licenseRes : String → Option String)
    (repo_name : String) : MetadataResult :=
  { readme := readmeRes repo_name,
    license := licenseRes repo_name,
    is_open_source := _is_open_source (licenseRes repo_name) }

/-- Embeds `ReadmeEnricher.fetch_metadata_many`: `dict(zip(repo_names, results,
strict=True))`, modelled as an association list in request order. -/
def fetch_metadata_many (repo_names : List String)
    (readmeRes licenseRes : String → Option String) :
    List (String × MetadataResult) :=
  repo_names.map (fun n => (n, fetch_metadata readmeRes licenseRes n))

/-- Association-list lookup, i.e. Python `dict.get(k)` (returns `None` when
the key is absent). -/
def lookupMeta : List (String × MetadataResult) → String → Option MetadataResult
  | [], _ => none
  | (k2, v) :: rest, k => if k2 = k then some v else lookupMeta rest k

/-! ### `filters/gemini.py` -/

/-- Embeds `_QuickStartCode` response schema. -/
structure QuickStartCode where
  language : String := ""
  code : String := ""
deriving Repr, DecidableEq

/-- Embeds `_FilteredItem` response schema.  Pydantic field validation
(`relevance_score: Field(ge=1, le=10)`) is the separate predicate
`FilteredItem.schemaValid`. -/
structure FilteredItem where
  index : Int
  relevance_score : Int
  matched_interests : List String
  summary : String
  quick_start : Option QuickStartCode := none
deriving Repr, DecidableEq

/-- The pydantic field constraint on `_FilteredItem.relevance_score`
(`ge=1, le=10`): every item parsed from the structured response satisfies it. -/
def FilteredItem.schemaValid (it : FilteredItem) : Prop :=
  1 ≤ it.relevance_score ∧ it.relevance_score ≤ 10

instance (it : FilteredItem) : Decidable it.schemaValid := by
  unfold FilteredItem.schemaValid
  infer_instance

/-- The `code_examples` computed inside the `_build_results` loop:
`if item.quick_start and item.quick_start.code and is_open_source`, where the
snippet language falls back through `item.quick_start.language or repo.language
or "text"`. -/
def snippetOf (item : FilteredItem) (repo : Repository) (is_os : Bool) :
    List CodeExample :=
  match item.quick_start with
  | some qs =>
    if qs.code ≠ "" ∧ is_os = true then
      [{ language := pyOrStr qs.language (pyOrOptStr repo.language "text"),
         code := qs.code }]
    else []
  | none => []

/-- The `FilteredRepository` built by `_build_results` for one in-range
response item: `is_open_source = repo.name in open_source_set`, license from
`licenses.get(repo.name)`, snippet gated by `snippetOf`. -/
def resultFor (licenses : String → Option String) (open_source_set : List String)
    (item : FilteredItem) (repo : Repository) : FilteredRepository :=
  { repository := repo,
    relevance_score := item.relevance_score,
    summary := item.summary,
    matched_interests := item.matched_interests,
    license := licenses repo.name,
    is_open_source := decide (repo.name ∈ open_source_set),
    code_examples := snippetOf item repo (decide (repo.name ∈ open_source_set)) }

/-- The body of the `GeminiFilter._build_results` loop for one response item:
`idx = item.index - 1`; the item contributes a result only when
`0 <= idx < len(repositories)`, and is otherwise dropped silently. -/
def buildOne (repositories : List Repository) (licenses : String → Option String)
    (open_source_set : List String) (item : FilteredItem) : Option FilteredRepository :=
  if h : 0 ≤ item.index - 1 ∧ item.index - 1 < (repositories.length : Int) then
    some (resultFor licenses open_source_set item
      (repositories.get ⟨(item.index - 1).toNat, by omega⟩))
  else none

/-- Embeds `GeminiFilter._build_results`: the append-loop over response items. -/
def _build_results (items : List FilteredItem) (repositories : List Repository)
    (licenses : String → Option String) (open_source_set : List String) :
    List FilteredRepository :=
  items.filterMap (buildOne repositories licenses open_source_set)

/-- Embeds `GeminiFilter.filter`: empty input short-circuits to `[]` with no external
call; otherwise the Gemini call either raises (propagated), yields an
empty/unparseable response (`.ok none`, logged and degraded to `[]`), or yields
parsed items handed to `_build_results`. -/
def gemini_filter (repositories : List Repository) (licenses : String → Option String)
    (open_source_set : List String)
    (response : Except Unit (Option (List FilteredItem))) :
    Except Unit (List FilteredRepository) :=
  if repositories = [] then .ok []
  else
    match response with
    | .error e => .error e
    | .ok none => .ok []
    | .ok (some items) => .ok (_build_results items repositories licenses open_source_set)

/-! ### `sources/github.py` -/

/-- Embeds `GitHubTrendingSource._parse_number`: strip, drop commas, empty means 0,
otherwise Python `int()` (which raises, modelled `none`, on non-numeric text). -/
def _parse_number (text : String) : Option Int :=
  let cleaned := removeCommas (pyStrip text)
  if cleaned = "" then some 0 else pyInt cleaned

/-- Embeds `GitHubTrendingSource._parse_stars_today`: `text.strip().split()`, parse the
first part if any, else 0. -/
def _parse_stars_today (text : String) : Option Int :=
  match pySplitWs (pyStrip text) with
  | p :: _ => _parse_number p
  | [] => some 0

/-- The pieces of one `article.Box-row` element that `_parse_repository` reads:
each field is the text of the corresponding CSS query when the element exists.
`nameHref` is the `href` attribute of the `h2 a` element (attribute default
`""` when the element exists without it). -/
structure Article where
  nameHref : Option String := none
  descText : Option String := none
  langText : Option String := none
  starText : Option String := none
  forkText : Option String := none
  starsTodayText : Option String := none
deriving Repr, DecidableEq

/-- One numeric field of `_parse_repository`: the field stays 0 when the
element is absent, otherwise the given parser runs on its text, and a parse
`ValueError` (`none`) propagates as a raise (`Except.error`). -/
def parseNumField (t : Option String) (p : String → Option Int) : Except Unit Int :=
  match t with
  | none => .ok 0
  | some s =>
    match p s with
    | some n => .ok n
    | none => .error ()

/-- Embeds `GitHubTrendingSource._parse_repository`: `.ok none` models the
`return None` taken when the name element is missing; `.error ()` models an
uncaught `ValueError` from a numeric parse. -/
def _parse_repository (a : Article) : Except Unit (Option Repository) :=
  match a.nameHref with
  | none => .ok none
  | some href =>
    match parseNumField a.starText _parse_number with
    | .error e => .error e
    | .ok stars =>
      match parseNumField a.forkText _parse_number with
      | .error e => .error e
      | .ok forks =>
        match parseNumField a.starsTodayText _parse_stars_today with
        | .error e => .error e
        | .ok stars_today =>
          .ok (some { name := stripSlashes href,
                      url := "https://github.com" ++ href,
                      description := a.descText,
                      language := a.langText,
                      stars := stars,
                      stars_today := stars_today,
                      forks := forks })

/-- The parsing loop of `GitHubTrendingSource.fetch` over the scraped article
list: `None` results are skipped, and an exception anywhere aborts the fetch. -/
def parse_articles (articles : List Article) : Except Unit (List Repository) :=
  match articles with
  | [] => .ok []
  | a :: rest =>
    match _parse_repository a with
    | .error e => .error e
    | .ok none => parse_articles rest
    | .ok (some r) =>
      match parse_articles rest with
      | .error e => .error e
      | .ok rs => .ok (r :: rs)

/-! ### `storage/supabase.py` -/

/-- One row of the `trend_items` table, minus the surrogate `id` column
(rows are addressed here directly by their `(source, source_id)` key). -/
structure StoredRecord where
  title : String
  url : String
  description : Option String
  metadata : List (String × MetaValue)
  relevance_score : Option Int
  summary : Option String
  matched_interests : List String
  code_example : Option String
  license : Option String
  is_open_source : Bool
  last_seen_at : Nat
  first_seen_at : Nat
deriving Repr, DecidableEq

/-- The deduplication key of a `TrendItem`: `(source, source_id)`. -/
def keyOf (it : TrendItem) : String × String := (it.source, it.source_id)

/-- The `trend_items` table, as an association list. -/
abbrev Table := List ((String × String) × StoredRecord)

/-- Row lookup by key (the `.eq("source", ...).eq("source_id", ...)` select;
the code then uses the first returned row). -/
def lookupTbl : Table → (String × String) → Option StoredRecord
  | [], _ => none
  | (k2, v) :: rest, k => if k2 = k then some v else lookupTbl rest k

/-- Update the columns of the first row with the given key (the
`.update(data).eq("id", ...)` call); rows with other keys are untouched. -/
def updateTbl : Table → (String × String) → StoredRecord → Table
  | [], _, _ => []
  | (k2, v) :: rest, k, newv =>
    if k2 = k then (k2, newv) :: rest else (k2, v) :: updateTbl rest k newv

/-- The `data` dict built per item in `upsert_items`: every mutable column plus
`last_seen_at = now`; `first_seen_at` is the extra key stamped only on insert
(an update leaves the stored `first_seen_at` untouched, so on the update path
`first` is the existing row's value). -/
def rowData (item : TrendItem) (now first : Nat) : StoredRecord :=
  { title := item.title,
    url := item.url,
    description := item.description,
    metadata := item.metadata,
    relevance_score := item.relevance_score,
    summary := item.summary,
    matched_interests := item.matched_interests,
    code_example := item.code_example,
    license := item.license,
    is_open_source := item.is_open_source,
    last_seen_at := now,
    first_seen_at := first }

/-- The per-item loop of `SupabaseStorage.upsert_items`: returns the final
table and the `new_items` list (novel items, in input order). -/
def upsertList : Table → List TrendItem → Nat → Table × List TrendItem
  | tbl, [], _ => (tbl, [])
  | tbl, item :: rest, now =>
    match lookupTbl tbl (keyOf item) with
    | some r =>
      upsertList (updateTbl tbl (keyOf item) (rowData item now r.first_seen_at)) rest now
    | none =>
      let p := upsertList (tbl ++ [(keyOf item, rowData item now now)]) rest now
      (p.1, item :: p.2)

/-- Embeds `SupabaseStorage` state: `configured` is `self.client is not None`. -/
structure StorageState where
  configured : Bool
  table : Table
deriving Repr, DecidableEq

/-- Embeds `SupabaseStorage.upsert_items`: `if not self.client or not items: return []`,
otherwise run the per-item loop with one `now` timestamp for the whole call. -/
def upsert_items (s : StorageState) (items : List TrendItem) (now : Nat) :
    List TrendItem × StorageState :=
  if s.configured = false ∨ items = [] then ([], s)
  else
    let p := upsertList s.table items now
    (p.2, { configured := s.configured, table := p.1 })

/-! ### `notifiers/slack.py` -/

/-- Python truthiness of `self.webhook_url` (`str | None`): falsy iff `None`
or the empty string. -/
def urlFalsy (url : Option String) : Bool :=
  match url with
  | none => true
  | some s => s = ""

/-- Embeds `SlackNotifier.is_configured`: `self.webhook_url is not None`. -/
def slack_is_configured (url : Option String) : Bool :=
  match url with
  | none => false
  | some _ => true

/-- Result of a `send` call: whether it returned `True`, and whether the
HTTP POST was attempted at all. -/
structure SendResult where
  delivered : Bool
  networkCalled : Bool
deriving Repr, DecidableEq

/-- Embeds `SlackNotifier.send`, with the transport outcome supplied: `.error ()` is a
raised `httpx.RequestError` (caught and logged), `.ok status` the response
status code.  Only a 200 yields `True`; nothing propagates to the caller. -/
def send (webhook_url : Option String) (items : List TrendItem)
    (transport : Except Unit Nat) : SendResult :=
  if urlFalsy webhook_url = true ∨ items = [] then ⟨false, false⟩
  else
    match transport with
    | .error _ => ⟨false, true⟩
    | .ok status => if status = 200 then ⟨true, true⟩ else ⟨false, true⟩

/-! ### `scheduler.py` -/

/-- Embeds `scheduler._convert_github_to_trend_item`. -/
def _convert_github_to_trend_item (fr : FilteredRepository) : TrendItem :=
  { source := "github",
    source_id := fr.repository.name,
    title := fr.repository.name,
    url := fr.repository.url,
    description := fr.repository.description,
    metadata :=
      [("stars", .intVal fr.repository.stars),
       ("stars_today", .intVal fr.repository.stars_today),
       ("language", match fr.repository.language with
                    | some l => .strVal l
                    | none => .nullVal),
       ("forks", .intVal fr.repository.forks)],
    relevance_score := some fr.relevance_score,
    summary := some fr.summary,
    matched_interests := fr.matched_interests,
    code_example := match fr.code_examples with
                    | [] => none
                    | c :: _ => some c.code,
    license := fr.license,
    is_open_source := fr.is_open_source }

/-- Step 7 of `scheduler.run`: the novel subset comes from the store when it is
configured; otherwise every collected item is treated as new
(`new_items = all_items`, the code comment marks it as the test path). -/
def scheduler_new_items (storage : StorageState) (all_items : List TrendItem)
    (now : Nat) : List TrendItem :=
  if storage.configured = true then (upsert_items storage all_items now).1
  else all_items

/-- The external outcomes `scheduler.run` depends on. -/
structure RunEffects where
  githubFetch : Except Unit (List Repository)
  readmeRes : String → Option String
  licenseRes : String → Option String
  geminiResponse : Except Unit (Option (List FilteredItem))
  hnFetch : Except Unit (List TrendItem)
  storage : StorageState
  slackUrl : Option String
  now : Nat

/-- Observable trace of one `scheduler.run` invocation: whether it completed
or an exception escaped, whether the storage upsert and the Slack send were
reached, and what item list was handed to the notifier. -/
structure RunTrace where
  result : Except Unit Unit
  storageRan : Bool
  notifierRan : Bool
  notified : List TrendItem
deriving Repr

/-- Embeds `scheduler.run`: the straight-line orchestration.  No stage is wrapped in
`try`/`except`, so a raise from the GitHub fetch, the Gemini call or the HN
fetch propagates and ends the run before the later stages. -/
def run (eff : RunEffects) : RunTrace :=
  match eff.githubFetch with
  | .error _ => ⟨.error (), false, false, []⟩
  | .ok github_repos =>
    let repo_names := github_repos.map Repository.name
    let enrichments := fetch_metadata_many repo_names eff.readmeRes eff.licenseRes
    let licenses := fun n => (lookupMeta enrichments n).bind MetadataResult.license
    let open_source_set := enrichments.filterMap
      (fun p => if p.2.is_open_source = true then some p.1 else none)
    match gemini_filter github_repos licenses open_source_set eff.geminiResponse with
    | .error _ => ⟨.error (), false, false, []⟩
    | .ok filtered_github =>
      let github_items := filtered_github.map _convert_github_to_trend_item
      match eff.hnFetch with
      | .error _ => ⟨.error (), false, false, []⟩
      | .ok hn_items =>
        let all_items := github_items ++ hn_items.take 10
        let new_items := scheduler_new_items eff.storage all_items eff.now
        let notifierRan := slack_is_configured eff.slackUrl && !(new_items.isEmpty)
        ⟨.ok (), eff.storage.configured, notifierRan,
          if notifierRan = true then new_items else []⟩

/-! ### Sample concrete values used by witnesses and counterexamples -/

/-- A sample repository record. -/
def sampleRepo : Repository :=
  { name := "octo/repo", url := "https://github.com/octo/repo" }

/-- A sample in-range classifier response item with the minimum valid score. -/
def sampleItem : FilteredItem :=
  { index := 1, relevance_score := 1, matched_interests := [], summary := "" }

/-- A sample response item that proposes a quick-start snippet. -/
def sampleItemWithSnippet : FilteredItem :=
  { index := 1, relevance_score := 9, matched_interests := ["LLM"], summary := "s",
    quick_start := some { language := "python", code := "print(1)" } }

/-- A sample Hacker News trend item. -/
def sampleHnItem : TrendItem :=
  { source := "hackernews", source_id := "101", title := "story", url := "https://example.org" }

/-- An empty, configured storage state. -/
def sampleStore : StorageState := { configured := true, table := [] }

/-- Scheduler effects where the GitHub fetch raises while everything else is
healthy: the HN fetch would return an item, the store and the Slack webhook
are configured. -/
def sampleEffectsGithubDown : RunEffects :=
  { githubFetch := .error (),
    readmeRes := fun _ => none,
    licenseRes := fun _ => none,
    geminiResponse := .ok none,
    hnFetch := .ok [sampleHnItem],
    storage := sampleStore,
    slackUrl := some "https://hooks.example/T000/B000",
    now := 0 }

/-! ### Lemmas about the Gemini result construction -/

theorem snippetOf_ne_nil (item : FilteredItem) (repo : Repository) (b : Bool)
    (h : snippetOf item repo b ≠ []) : b = true := by
  unfold snippetOf at h
  split at h
  · split at h
    · rename_i hcond
      exact hcond.2
    · exact absurd rfl h
  · exact absurd rfl h

theorem buildOne_some (repos : List Repository) (licenses : String → Option String)
    (oss : List String) (it : FilteredItem) (fr : FilteredRepository)
    (h : buildOne repos licenses oss it = some fr) :
    ∃ repo, fr = resultFor licenses oss it repo := by
  unfold buildOne at h
  split at h
  · exact ⟨_, (Option.some.inj h).symm⟩
  · cases h

theorem buildOne_out_of_range (repos : List Repository) (licenses : String → Option String)
    (oss : List String) (it : FilteredItem)
    (h : it.index ≤ 0 ∨ (repos.length : Int) < it.index) :
    buildOne repos licenses oss it = none := by
  unfold buildOne
  rw [dif_neg]
  omega

theorem buildOne_in_range (repos : List Repository) (licenses : String → Option String)
    (oss : List String) (it : FilteredItem)
    (h1 : 1 ≤ it.index) (h2 : it.index ≤ (repos.length : Int))
    (hlt : (it.index - 1).toNat < repos.length) :
    buildOne repos licenses oss it
      = some (resultFor licenses oss it (repos.get ⟨(it.index - 1).toNat, hlt⟩)) := by
  unfold buildOne
  rw [dif_pos (by omega)]

/-! ### Claim C1 -/

/-- C1 (counterexample): with the default configured threshold 6, a schema-valid
response item with relevance score 1 (which pydantic accepts, since the field
bound is only `ge=1, le=10`) passes straight through `_build_results` into the
classifier output, so a record scored below the configured threshold does
appear in the output list: the claim as stated is false. -/
theorem C1_counterexample :
    (_build_results [sampleItem] [sampleRepo] (fun _ => none) []).map
        FilteredRepository.relevance_score = [1]
    ∧ sampleItem.schemaValid
    ∧ (1 : Int) < relevance_threshold_default := by
  refine ⟨by decide, by decide, by decide⟩

/-- C1 (amended): for every item in the classifier's output list, the relevance
score is between 1 and 10 inclusive (this comes from the pydantic field
validation `ge=1, le=10` on the response schema, assumed here for the parsed
items).  The sub-threshold part of the claim does not hold: omission of
sub-threshold items is requested from the external service in the prompt text
and never re-checked in `_build_results`. -/
theorem C1_score_bounds (items : List FilteredItem) (repos : List Repository)
    (licenses : String → Option String) (oss : List String)
    (hvalid : ∀ it ∈ items, it.schemaValid) :
    ∀ fr ∈ _build_results items repos licenses oss,
      1 ≤ fr.relevance_score ∧ fr.relevance_score ≤ 10 := by
  intro fr hfr
  obtain ⟨it, hit, hb⟩ := List.mem_filterMap.mp hfr
  obtain ⟨repo, rfl⟩ := buildOne_some repos licenses oss it fr hb
  exact hvalid it hit

/-- C1 (witness): the score-bounds theorem applied to a concrete valid batch. -/
theorem C1_score_bounds_witness :
    (∀ it ∈ [sampleItemWithSnippet], it.schemaValid)
    ∧ (∀ fr ∈ _build_results [sampleItemWithSnippet] [sampleRepo] (fun _ => none) [],
        1 ≤ fr.relevance_score ∧ fr.relevance_score ≤ 10) :=
  ⟨by decide, C1_score_bounds [sampleItemWithSnippet] [sampleRepo] (fun _ => none) [] (by decide)⟩

/-! ### Claim C2 -/

/-- C2: when the `open_source_set` handed to `_build_results` is exactly the
set of names the enricher's allow-list check (`_is_open_source`) confirms for
the license assignment, every built result that retains a quick-start snippet
has `is_open_source = true` and a license that passes the allow-list check;
contrapositively, a record whose license is unknown (`none`) or non-permissive
yields a result with no snippet, regardless of what the response proposed. -/
theorem C2_snippet_gate (items : List FilteredItem) (repos : List Repository)
    (licenses : String → Option String) (oss : List String)
    (hoss : ∀ n : String, n ∈ oss ↔ _is_open_source (licenses n) = true) :
    ∀ fr ∈ _build_results items repos licenses oss,
      fr.code_examples ≠ [] →
        fr.is_open_source = true ∧ _is_open_source fr.license = true := by
  intro fr hfr hne
  obtain ⟨it, hit, hb⟩ := List.mem_filterMap.mp hfr
  obtain ⟨repo, rfl⟩ := buildOne_some repos licenses oss it fr hb
  have hb2 : decide (repo.name ∈ oss) = true :=
    snippetOf_ne_nil it repo (decide (repo.name ∈ oss)) hne
  have hmem : repo.name ∈ oss := of_decide_eq_true hb2
  exact ⟨hb2, (hoss repo.name).mp hmem⟩

/-- C2 (witness): the gate theorem applied with a non-permissive license for
every record (so the allow-list confirms nothing and the open-source set is
empty), on an item whose response proposed a snippet. -/
theorem C2_snippet_gate_witness :
    (∀ n : String, n ∈ ([] : List String)
        ↔ _is_open_source ((fun _ => some "proprietary") n) = true)
    ∧ (∀ fr ∈ _build_results [sampleItemWithSnippet] [sampleRepo]
          (fun _ => some "proprietary") [],
        fr.code_examples ≠ [] →
          fr.is_open_source = true ∧ _is_open_source fr.license = true) := by
  have hlic : _is_open_source (some "proprietary") = false := by decide
  refine ⟨?_, C2_snippet_gate _ _ _ _ ?_⟩
  · intro n
    simp [hlic]
  · intro n
    simp [hlic]

/-! ### Claim C6 -/

/-- C6: a response item whose 1-based position is 0, negative, or greater than
the number of input records contributes nothing to the built results (and the
rest of the batch is processed normally, with no exception path); an item with
position in `[1, len(records)]` yields exactly one result whose repository is
the input record at that position. -/
theorem C6_position_mapping (repos : List Repository) (licenses : String → Option String)
    (oss : List String) (it : FilteredItem) :
    (it.index ≤ 0 ∨ (repos.length : Int) < it.index →
      _build_results [it] repos licenses oss = [])
    ∧ (1 ≤ it.index → it.index ≤ (repos.length : Int) →
      ∃ fr, _build_results [it] repos licenses oss = [fr] ∧
        repos[(it.index - 1).toNat]? = some fr.repository)
    ∧ (∀ rest : List FilteredItem,
      _build_results (it :: rest) repos licenses oss
        = _build_results [it] repos licenses oss
            ++ _build_results rest repos licenses oss) := by
  refine ⟨?_, ?_, ?_⟩
  · intro h
    simp [_build_results, buildOne_out_of_range repos licenses oss it h]
  · intro h1 h2
    have hlt : (it.index - 1).toNat < repos.length := by omega
    refine ⟨resultFor licenses oss it (repos.get ⟨(it.index - 1).toNat, hlt⟩), ?_, ?_⟩
    · simp [_build_results, buildOne_in_range repos licenses oss it h1 h2 hlt]
    · rw [List.getElem?_eq_getElem hlt]
      rfl
  · intro rest
    simp only [_build_results]
    rw [show it :: rest = [it] ++ rest from rfl, List.filterMap_append]

/-- C6 (witness): the mapping theorem instantiated on a one-record batch, for
an out-of-range position (5) and the in-range position (1). -/
theorem C6_position_mapping_witness :
    _build_results [{ sampleItem with index := 5 }] [sampleRepo] (fun _ => none) [] = []
    ∧ (∃ fr, _build_results [sampleItem] [sampleRepo] (fun _ => none) [] = [fr] ∧
        ([sampleRepo])[((sampleItem.index - 1).toNat)]? = some fr.repository) :=
  ⟨(C6_position_mapping [sampleRepo] (fun _ => none) [] { sampleItem with index := 5 }).1
      (by decide),
   (C6_position_mapping [sampleRepo] (fun _ => none) [] sampleItem).2.1
      (by decide) (by decide)⟩

/-! ### Claim C3 -/

/-- C3 (counterexample): `scheduler.run` wraps no stage in `try`/`except`, so
when the GitHub source raises on total fetch failure the exception propagates:
the run aborts before the HN items (which the HN fetch would have returned)
reach the store and notifier stages, even though both are configured.  The
claim that the orchestrator treats the raise as zero records and continues is
false. -/
theorem C3_counterexample :
    (run sampleEffectsGithubDown).result = .error ()
    ∧ (run sampleEffectsGithubDown).storageRan = false
    ∧ (run sampleEffectsGithubDown).notifierRan = false
    ∧ sampleEffectsGithubDown.hnFetch = .ok [sampleHnItem]
    ∧ sampleEffectsGithubDown.storage.configured = true
    ∧ slack_is_configured sampleEffectsGithubDown.slackUrl = true :=
  ⟨rfl, rfl, rfl, rfl, rfl, rfl⟩

/-- C3 (amended): when the GitHub source adapter raises on total fetch
failure, the scheduler does not catch it: the run aborts with that exception
and neither the storage upsert nor the notifier stage runs, so a fetch failure
for one origin does prevent items from the other origin from completing the
pipeline. -/
theorem C3_fetch_raise_aborts (eff : RunEffects) (e : Unit)
    (h : eff.githubFetch = .error e) :
    run eff = ⟨.error (), false, false, []⟩ := by
  unfold run
  rw [h]

/-- C3 (witness): the abort theorem applied to the concrete failing effects. -/
theorem C3_fetch_raise_aborts_witness :
    sampleEffectsGithubDown.githubFetch = .error ()
    ∧ run sampleEffectsGithubDown = ⟨.error (), false, false, []⟩ :=
  ⟨rfl, C3_fetch_raise_aborts sampleEffectsGithubDown () rfl⟩

/-! ### Claim C7 -/

/-- C7: `SlackNotifier.send` returns `False` with no network call whenever the
webhook URL is unconfigured (`None`) or the item list is empty; and for any
delivery failure — a transport-level exception (`httpx.RequestError`, caught
by the `except` clause) or a non-success response status — it returns `False`
rather than raising (the embedding of `send` is a total function, so no
exception ever reaches the caller). -/
theorem C7_send_failure_contract (url : Option String) (items : List TrendItem)
    (t : Except Unit Nat) :
    (url = none ∨ items = [] → send url items t = ⟨false, false⟩)
    ∧ (∀ e : Unit, t = .error e → (send url items t).delivered = false)
    ∧ (∀ status : Nat, t = .ok status → status ≠ 200 →
        (send url items t).delivered = false) := by
  refine ⟨?_, ?_, ?_⟩
  · rintro (rfl | rfl)
    · rfl
    · simp [send]
  · rintro e rfl
    unfold send
    split
    · rfl
    · rfl
  · rintro status rfl hstatus
    unfold send
    split
    · rfl
    · simp only
      rw [if_neg hstatus]

/-- C7 (witness): the contract applied at an unconfigured URL, at a transport
exception, and at a 500 response. -/
theorem C7_send_failure_contract_witness :
    send none [sampleHnItem] (.ok 200) = ⟨false, false⟩
    ∧ (send (some "https://hooks.example/T000/B000") [sampleHnItem] (.error ())).delivered
        = false
    ∧ (send (some "https://hooks.example/T000/B000") [sampleHnItem] (.ok 500)).delivered
        = false :=
  ⟨(C7_send_failure_contract none [sampleHnItem] (.ok 200)).1 (Or.inl rfl),
   (C7_send_failure_contract (some "https://hooks.example/T000/B000") [sampleHnItem]
      (.error ())).2.1 () rfl,
   (C7_send_failure_contract (some "https://hooks.example/T000/B000") [sampleHnItem]
      (.ok 500)).2.2 500 rfl (by decide)⟩

/-! ### Claim C9 -/

/-- C9: the enricher's batch fetch returns one entry per requested identifier
in request order, whatever the two sub-fetch outcomes are; an identifier both
of whose sub-fetches failed still gets an entry, holding `None` for both the
readme and the license and `is_open_source = False`; and whenever the license
sub-fetch yields nothing the entry's open-source flag is `False` (absence is
never treated as permissive). -/
theorem C9_enricher_total_map (names : List String) (f g : String → Option String) :
    ((fetch_metadata_many names f g).map Prod.fst = names)
    ∧ (∀ n ∈ names, lookupMeta (fetch_metadata_many names f g) n
        = some (fetch_metadata f g n))
    ∧ (∀ n : String, f n = none → g n = none →
        fetch_metadata f g n = ⟨none, none, false⟩)
    ∧ (∀ n : String, g n = none →
        (fetch_metadata f g n).license = none
        ∧ (fetch_metadata f g n).is_open_source = false) := by
  refine ⟨?_, ?_, ?_, ?_⟩
  · simp only [fetch_metadata_many, List.map_map]
    exact List.map_id names
  · intro n hn
    induction names with
    | nil => cases hn
    | cons m rest ih =>
      simp only [fetch_metadata_many, List.map_cons, lookupMeta]
      by_cases hm : m = n
      · rw [if_pos hm, hm]
      · rw [if_neg hm]
        rcases List.mem_cons.mp hn with h1 | h1
        · exact absurd h1.symm hm
        · exact ih h1
  · intro n hf hg
    unfold fetch_metadata _is_open_source
    rw [hf, hg]
  · intro n hg
    unfold fetch_metadata _is_open_source
    rw [hg]
    exact ⟨rfl, rfl⟩

/-- C9 (witness): the batch contract applied to a concrete request where both
sub-fetches fail for the identifier. -/
theorem C9_enricher_total_map_witness :
    ((fetch_metadata_many ["octo/repo"] (fun _ => none) (fun _ => none)).map Prod.fst
        = ["octo/repo"])
    ∧ lookupMeta (fetch_metadata_many ["octo/repo"] (fun _ => none) (fun _ => none))
        "octo/repo" = some (fetch_metadata (fun _ => none) (fun _ => none) "octo/repo")
    ∧ fetch_metadata (fun _ => none) (fun _ => none) "octo/repo" = ⟨none, none, false⟩ :=
  ⟨(C9_enricher_total_map ["octo/repo"] (fun _ => none) (fun _ => none)).1,
   (C9_enricher_total_map ["octo/repo"] (fun _ => none) (fun _ => none)).2.1
      "octo/repo" (by decide),
   (C9_enricher_total_map ["octo/repo"] (fun _ => none) (fun _ => none)).2.2.1
      "octo/repo" rfl rfl⟩

/-! ### Claim C10 -/

/-- C10: when the deduplication store is unconfigured, step 7 of the scheduler
skips the upsert and treats the entire concatenated item set as novel
(`new_items = all_items`), so all of it is what reaches the notifier stage —
no deduplication happens on such a run — even though the store's own
`upsert_items` would have returned an empty list in that state. -/
theorem C10_unconfigured_store_passthrough (s : StorageState)
    (items : List TrendItem) (now : Nat) (h : s.configured = false) :
    scheduler_new_items s items now = items
    ∧ (upsert_items s items now).1 = [] := by
  constructor
  · simp [scheduler_new_items, h]
  · simp [upsert_items, h]

/-- C10 (witness): the passthrough theorem applied to an unconfigured store
with a nonempty item list. -/
theorem C10_unconfigured_store_passthrough_witness :
    scheduler_new_items { configured := false, table := [] } [sampleHnItem] 0
        = [sampleHnItem]
    ∧ (upsert_items { configured := false, table := [] } [sampleHnItem] 0).1 = [] :=
  C10_unconfigured_store_passthrough { configured := false, table := [] }
    [sampleHnItem] 0 rfl

/-! ### Claim C8: helpers -/

/-- Whether one numeric field of an article parses without raising: vacuously
true when the element is absent (the field stays 0). -/
def numFieldOk (t : Option String) (p : String → Option Int) : Bool :=
  match t with
  | none => true
  | some s => (p s).isSome

/-- Whether every numeric field of an article parses without raising. -/
def articleNumbersOk (a : Article) : Bool :=
  numFieldOk a.starText _parse_number
    && numFieldOk a.forkText _parse_number
    && numFieldOk a.starsTodayText _parse_stars_today

theorem parseNumField_ok (t : Option String) (p : String → Option Int)
    (h : numFieldOk t p = true) : ∃ n, parseNumField t p = .ok n := by
  rcases t with _ | s
  · exact ⟨0, rfl⟩
  · rcases hp : p s with _ | n
    · simp [numFieldOk, hp] at h
    · exact ⟨n, by simp [parseNumField, hp]⟩

theorem parse_repository_ok (a : Article) (h : articleNumbersOk a = true) :
    ∃ r, _parse_repository a = .ok r := by
  have h3 := by simpa only [articleNumbersOk, Bool.and_eq_true] using h
  obtain ⟨⟨h1, h2⟩, h3⟩ := h3
  obtain ⟨n1, e1⟩ := parseNumField_ok a.starText _parse_number h1
  obtain ⟨n2, e2⟩ := parseNumField_ok a.forkText _parse_number h2
  obtain ⟨n3, e3⟩ := parseNumField_ok a.starsTodayText _parse_stars_today h3
  unfold _parse_repository
  rcases a.nameHref with _ | href
  · exact ⟨none, rfl⟩
  · rw [e1, e2, e3]
    exact ⟨_, rfl⟩

/-! ### Claim C8 -/

/-- C8 (counterexample): `_parse_number` does raise a parse error (`none`
models the uncaught `ValueError` from `int()`) on non-numeric source text such
as `"N/A"`, and since neither `_parse_repository` nor the `fetch` loop catches
it, a single such malformed entry makes the whole fetch raise instead of being
omitted — the entry before it is parsed fine, so the failure is attributable
to the one malformed entry.  The claim as stated is false. -/
theorem C8_counterexample :
    _parse_number "N/A" = none
    ∧ parse_articles
        [{ nameHref := some "/octo/good", starText := some "1,234" },
         { nameHref := some "/octo/bad", starText := some "N/A" }]
      = .error () := by
  refine ⟨by decide, by decide⟩

/-- C8 (amended): `_parse_number` returns 0 for empty or absent text (any text
that strips to nothing once commas are removed), tolerates comma-grouped
counts and `"N today"`-style suffixes, and an article without a name element
is omitted (`None`) rather than raising; but it only never raises when every
numeric field of every article is well-formed decimal text — a non-numeric
numeric field raises `ValueError` out of `fetch` instead of omitting the
entry. -/
theorem C8_parse_number_tolerance :
    (∀ s : String, removeCommas (pyStrip s) = "" → _parse_number s = some 0)
    ∧ _parse_number "1,234" = some 1234
    ∧ _parse_stars_today "123 stars today" = some 123
    ∧ (∀ a : Article, a.nameHref = none → _parse_repository a = .ok none)
    ∧ (∀ articles : List Article,
        (∀ a ∈ articles, articleNumbersOk a = true) →
        ∃ rs, parse_articles articles = .ok rs) := by
  refine ⟨?_, by decide, by decide, ?_, ?_⟩
  · intro s h
    unfold _parse_number
    rw [if_pos h]
  · intro a h
    unfold _parse_repository
    rw [h]
  · intro articles
    induction articles with
    | nil => exact fun _ => ⟨[], rfl⟩
    | cons a rest ih =>
      intro hall
      obtain ⟨r, hr⟩ := parse_repository_ok a (hall a (List.mem_cons_self a rest))
      obtain ⟨rs, hrs⟩ := ih (fun a2 h2 => hall a2 (List.mem_cons_of_mem a h2))
      unfold parse_articles
      rw [hr]
      rcases r with _ | repo
      · exact ⟨rs, hrs⟩
      · rw [hrs]
        exact ⟨repo :: rs, rfl⟩

/-- C8 (witness): the tolerance theorem applied to whitespace-and-comma text,
a nameless article, and a batch of two well-formed articles. -/
theorem C8_parse_number_tolerance_witness :
    _parse_number " , " = some 0
    ∧ _parse_repository { nameHref := none } = .ok none
    ∧ (∃ rs, parse_articles
        [{ nameHref := some "/octo/good", starText := some "1,234" },
         { nameHref := some "/octo/ok", starsTodayText := some "55 stars today" }]
      = .ok rs) :=
  ⟨(C8_parse_number_tolerance.1 " , " (by decide)),
   (C8_parse_number_tolerance.2.2.2.1 { nameHref := none } rfl),
   (C8_parse_number_tolerance.2.2.2.2
      [{ nameHref := some "/octo/good", starText := some "1,234" },
       { nameHref := some "/octo/ok", starsTodayText := some "55 stars today" }]
      (by decide))⟩

/-! ### Lemmas about the deduplication table -/

theorem lookupTbl_updateTbl_ne (tbl : Table) (k k2 : String × String)
    (v : StoredRecord) (h : k2 ≠ k) :
    lookupTbl (updateTbl tbl k v) k2 = lookupTbl tbl k2 := by
  induction tbl with
  | nil => rfl
  | cons p rest ih =>
    obtain ⟨pk, pv⟩ := p
    by_cases hpk : pk = k
    · simp only [updateTbl, if_pos hpk, lookupTbl]
      rw [if_neg (by rw [hpk]; exact fun hh => h hh.symm),
          if_neg (by rw [hpk]; exact fun hh => h hh.symm)]
    · simp only [updateTbl, if_neg hpk, lookupTbl]
      by_cases hpk2 : pk = k2
      · rw [if_pos hpk2, if_pos hpk2]
      · rw [if_neg hpk2, if_neg hpk2, ih]

theorem lookupTbl_updateTbl_self (tbl : Table) (k : String × String)
    (v : StoredRecord) (h : lookupTbl tbl k ≠ none) :
    lookupTbl (updateTbl tbl k v) k = some v := by
  induction tbl with
  | nil => exact absurd rfl h
  | cons p rest ih =>
    obtain ⟨pk, pv⟩ := p
    by_cases hpk : pk = k
    · simp only [updateTbl, if_pos hpk, lookupTbl]
    · simp only [updateTbl, if_neg hpk, lookupTbl]
      apply ih
      simpa only [lookupTbl, if_neg hpk] using h

theorem lookupTbl_append_one_ne (tbl : Table) (key k : String × String)
    (v : StoredRecord) (h : k ≠ key) :
    lookupTbl (tbl ++ [(key, v)]) k = lookupTbl tbl k := by
  induction tbl with
  | nil =>
    simp only [List.nil_append, lookupTbl]
    rw [if_neg (fun hh => h hh.symm)]
  | cons p rest ih =>
    obtain ⟨pk, pv⟩ := p
    simp only [List.cons_append, lookupTbl]
    by_cases hpk : pk = k
    · rw [if_pos hpk, if_pos hpk]
    · rw [if_neg hpk, if_neg hpk]
      exact ih

theorem lookupTbl_append_one_self (tbl : Table) (key : String × String)
    (v : StoredRecord) (h : lookupTbl tbl key = none) :
    lookupTbl (tbl ++ [(key, v)]) key = some v := by
  induction tbl with
  | nil => simp [lookupTbl]
  | cons p rest ih =>
    obtain ⟨pk, pv⟩ := p
    simp only [lookupTbl] at h
    by_cases hpk : pk = key
    · rw [if_pos hpk] at h
      cases h
    · rw [if_neg hpk] at h
      simp only [List.cons_append, lookupTbl]
      rw [if_neg hpk]
      exact ih h

theorem lookupTbl_append_one_some (tbl : Table) (key k : String × String)
    (v r : StoredRecord) (h : lookupTbl tbl k = some r) :
    lookupTbl (tbl ++ [(key, v)]) k = some r := by
  induction tbl with
  | nil => cases h
  | cons p rest ih =>
    obtain ⟨pk, pv⟩ := p
    simp only [lookupTbl] at h
    simp only [List.cons_append, lookupTbl]
    by_cases hpk : pk = k
    · rw [if_pos hpk] at h
      rw [if_pos hpk]
      exact h
    · rw [if_neg hpk] at h
      rw [if_neg hpk]
      exact ih h

/-- Keys present before an upsert batch stay present afterwards, and their
`first_seen_at` column is never modified (updates copy it from the existing
row, and inserts only happen for absent keys). -/
theorem upsertList_pres (items : List TrendItem) :
    ∀ (tbl : Table) (now : Nat) (k : String × String) (r : StoredRecord),
      lookupTbl tbl k = some r →
      ∃ r2, lookupTbl (upsertList tbl items now).1 k = some r2
        ∧ r2.first_seen_at = r.first_seen_at := by
  induction items with
  | nil => exact fun tbl now k r h => ⟨r, h, rfl⟩
  | cons item rest ih =>
    intro tbl now k r h
    simp only [upsertList]
    rcases hl : lookupTbl tbl (keyOf item) with _ | rec
    · have hk : k ≠ keyOf item := by
        intro hkk
        rw [hkk, hl] at h
        cases h
      exact ih _ now k r
        (lookupTbl_append_one_some tbl (keyOf item) k (rowData item now now) r h)
    · rcases eq_or_ne k (keyOf item) with hk | hk
      · subst hk
        have hrec : rec = r := Option.some.inj (hl.symm.trans h)
        subst hrec
        obtain ⟨r2, h2, h3⟩ := ih _ now (keyOf item) (rowData item now rec.first_seen_at)
          (lookupTbl_updateTbl_self tbl (keyOf item) (rowData item now rec.first_seen_at)
            (by rw [hl]; exact fun hh => Option.noConfusion hh))
        exact ⟨r2, h2, h3⟩
      · exact ih _ now k r
          (by rw [lookupTbl_updateTbl_ne tbl (keyOf item) k
                (rowData item now rec.first_seen_at) hk]; exact h)

/-- Every key of an upserted batch is present in the table afterwards. -/
theorem upsertList_key_present (items : List TrendItem) :
    ∀ (tbl : Table) (now : Nat) (it : TrendItem), it ∈ items →
      ∃ r2, lookupTbl (upsertList tbl items now).1 (keyOf it) = some r2 := by
  induction items with
  | nil => intro _ _ _ h; cases h
  | cons item rest ih =>
    intro tbl now it hmem
    simp only [upsertList]
    rcases hl : lookupTbl tbl (keyOf item) with _ | rec
    · rcases List.mem_cons.mp hmem with rfl | hmem2
      · obtain ⟨r2, h2, _⟩ := upsertList_pres rest _ now (keyOf it) _
          (lookupTbl_append_one_self tbl (keyOf it) (rowData it now now) hl)
        exact ⟨r2, h2⟩
      · exact ih _ now it hmem2
    · rcases List.mem_cons.mp hmem with rfl | hmem2
      · obtain ⟨r2, h2, _⟩ := upsertList_pres rest _ now (keyOf it) _
          (lookupTbl_updateTbl_self tbl (keyOf it) (rowData it now rec.first_seen_at)
            (by rw [hl]; exact fun hh => Option.noConfusion hh))
        exact ⟨r2, h2⟩
      · exact ih _ now it hmem2

/-- A batch whose keys are all already present returns no novel items. -/
theorem upsertList_no_new (items : List TrendItem) :
    ∀ (tbl : Table) (now : Nat),
      (∀ it ∈ items, lookupTbl tbl (keyOf it) ≠ none) →
      (upsertList tbl items now).2 = [] := by
  induction items with
  | nil => intro _ _ _; rfl
  | cons item rest ih =>
    intro tbl now hall
    simp only [upsertList]
    rcases hl : lookupTbl tbl (keyOf item) with _ | rec
    · exact absurd hl (hall item (List.mem_cons_self item rest))
    · apply ih
      intro it2 hit2
      by_cases hk : keyOf it2 = keyOf item
      · rw [hk, lookupTbl_updateTbl_self tbl (keyOf item)
            (rowData item now rec.first_seen_at)
            (by rw [hl]; exact fun hh => Option.noConfusion hh)]
        exact fun hh => Option.noConfusion hh
      · rw [lookupTbl_updateTbl_ne tbl (keyOf item) (keyOf it2)
            (rowData item now rec.first_seen_at) hk]
        exact hall it2 (List.mem_cons_of_mem item hit2)

/-- A key touched by no item of the batch keeps its pre-batch row. -/
theorem upsertList_untouched (items : List TrendItem) :
    ∀ (tbl : Table) (now : Nat) (k : String × String),
      (∀ it ∈ items, keyOf it ≠ k) →
      lookupTbl (upsertList tbl items now).1 k = lookupTbl tbl k := by
  induction items with
  | nil => intro _ _ _ _; rfl
  | cons item rest ih =>
    intro tbl now k hall
    simp only [upsertList]
    rcases hl : lookupTbl tbl (keyOf item) with _ | rec
    · rw [ih _ now k (fun it2 h2 => hall it2 (List.mem_cons_of_mem item h2))]
      exact lookupTbl_append_one_ne tbl (keyOf item) k (rowData item now now)
        (fun hh => hall item (List.mem_cons_self item rest) hh.symm)
    · rw [ih _ now k (fun it2 h2 => hall it2 (List.mem_cons_of_mem item h2))]
      exact lookupTbl_updateTbl_ne tbl (keyOf item) k (rowData item now rec.first_seen_at)
        (fun hh => hall item (List.mem_cons_self item rest) hh.symm)

/-- Over a batch with pairwise-distinct keys, the novel items returned are
exactly the input items whose key was absent before the call, in input
order. -/
theorem upsertList_novel (items : List TrendItem) :
    ∀ (tbl : Table) (now : Nat),
      (items.map keyOf).Nodup →
      (upsertList tbl items now).2
        = items.filter (fun it => (lookupTbl tbl (keyOf it)).isNone) := by
  induction items with
  | nil => intro _ _ _; rfl
  | cons item rest ih =>
    intro tbl now hnd
    have hcons := List.nodup_cons.mp (by simpa only [List.map_cons] using hnd)
    have hnotin : ∀ it2 ∈ rest, keyOf it2 ≠ keyOf item := by
      intro it2 h2 heq
      exact hcons.1 (heq ▸ List.mem_map_of_mem keyOf h2)
    simp only [upsertList]
    rcases hl : lookupTbl tbl (keyOf item) with _ | rec
    · simp only
      rw [ih _ now hcons.2, List.filter_cons]
      rw [if_pos (by rw [hl]; rfl)]
      congr 1
      apply List.filter_congr
      intro it2 h2
      rw [lookupTbl_append_one_ne tbl (keyOf item) (keyOf it2) (rowData item now now)
        (hnotin it2 h2)]
    · rw [ih _ now hcons.2, List.filter_cons]
      rw [if_neg (by rw [hl]; simp)]
      apply List.filter_congr
      intro it2 h2
      rw [lookupTbl_updateTbl_ne tbl (keyOf item) (keyOf it2)
        (rowData item now rec.first_seen_at) (hnotin it2 h2)]

/-- Over a batch with pairwise-distinct keys, each item's key ends up holding
exactly that item's mutable columns with `last_seen_at = now`, and
`first_seen_at` equal to the pre-existing row's value when the key existed,
else `now`. -/
theorem upsertList_final_row (items : List TrendItem) :
    ∀ (tbl : Table) (now : Nat),
      (items.map keyOf).Nodup →
      ∀ it ∈ items,
        lookupTbl (upsertList tbl items now).1 (keyOf it)
          = some (rowData it now
              (match lookupTbl tbl (keyOf it) with
               | some r => r.first_seen_at
               | none => now)) := by
  induction items with
  | nil => intro _ _ _ it h; cases h
  | cons item rest ih =>
    intro tbl now hnd it hmem
    have hcons := List.nodup_cons.mp (by simpa only [List.map_cons] using hnd)
    have hnotin : ∀ it2 ∈ rest, keyOf it2 ≠ keyOf item := by
      intro it2 h2 heq
      exact hcons.1 (heq ▸ List.mem_map_of_mem keyOf h2)
    simp only [upsertList]
    rcases hl : lookupTbl tbl (keyOf item) with _ | rec
    · rcases List.mem_cons.mp hmem with rfl | hm2
      · simp only
        rw [upsertList_untouched rest _ now (keyOf it) hnotin,
            lookupTbl_append_one_self tbl (keyOf it) (rowData it now now) hl, hl]
      · simp only
        rw [ih _ now hcons.2 it hm2,
            lookupTbl_append_one_ne tbl (keyOf item) (keyOf it) (rowData item now now)
              (hnotin it hm2)]
    · rcases List.mem_cons.mp hmem with rfl | hm2
      · rw [upsertList_untouched rest _ now (keyOf it) hnotin,
            lookupTbl_updateTbl_self tbl (keyOf it) (rowData it now rec.first_seen_at)
              (by rw [hl]; exact fun hh => Option.noConfusion hh), hl]
      · rw [ih _ now hcons.2 it hm2,
            lookupTbl_updateTbl_ne tbl (keyOf item) (keyOf it)
              (rowData item now rec.first_seen_at) (hnotin it hm2)]

/-! ### Claim C4 -/

/-- C4: against a configured store and a batch with pairwise-distinct
deduplication keys, `upsert_items` returns exactly the input items whose key
was not yet recorded, in input order; calling it again with the identical
list returns the empty list (every key is recorded by the first call); and
the empty list is a no-op that returns the empty list and leaves the state
unchanged. -/
theorem C4_upsert_idempotent (s : StorageState) (items : List TrendItem)
    (now1 now2 : Nat) (hconf : s.configured = true)
    (hnd : (items.map keyOf).Nodup) :
    (upsert_items s items now1).1
        = items.filter (fun it => (lookupTbl s.table (keyOf it)).isNone)
    ∧ (upsert_items (upsert_items s items now1).2 items now2).1 = []
    ∧ upsert_items s [] now1 = ([], s) := by
  refine ⟨?_, ?_, ?_⟩
  · by_cases hempty : items = []
    · subst hempty
      simp [upsert_items]
    · unfold upsert_items
      rw [if_neg (by simp [hconf, hempty])]
      exact upsertList_novel items s.table now1 hnd
  · by_cases hempty : items = []
    · subst hempty
      simp [upsert_items]
    · have hs1 : (upsert_items s items now1).2
        = { configured := s.configured, table := (upsertList s.table items now1).1 } := by
        unfold upsert_items
        rw [if_neg (by simp [hconf, hempty])]
      rw [hs1]
      unfold upsert_items
      rw [if_neg (by simp [hconf, hempty])]
      apply upsertList_no_new
      intro it hit
      obtain ⟨r2, h2⟩ := upsertList_key_present items s.table now1 it hit
      rw [h2]
      exact fun hh => Option.noConfusion hh
  · simp [upsert_items]

/-- C4 (witness): idempotence on a concrete one-item batch against an empty
configured store: the first call returns the item, the second returns
nothing. -/
theorem C4_upsert_idempotent_witness :
    sampleStore.configured = true
    ∧ ([sampleHnItem].map keyOf).Nodup
    ∧ ((upsert_items sampleStore [sampleHnItem] 5).1
        = [sampleHnItem].filter
            (fun it => (lookupTbl sampleStore.table (keyOf it)).isNone)
      ∧ (upsert_items (upsert_items sampleStore [sampleHnItem] 5).2 [sampleHnItem] 7).1 = []
      ∧ upsert_items sampleStore [] 5 = ([], sampleStore)) :=
  ⟨rfl, by decide, C4_upsert_idempotent sampleStore [sampleHnItem] 5 7 rfl (by decide)⟩

/-! ### Claim C5 -/

/-- C5: for a configured store and a batch with pairwise-distinct keys, every
key present before the call is still present afterwards with its
`first_seen_at` unchanged (no upsert deletes or re-stamps a record), and every
item of the batch ends up stored under its key with all mutable columns taken
from that item and `last_seen_at` refreshed to the call's timestamp, with
`first_seen_at` stamped to the call's timestamp exactly when the key is first
inserted and copied from the existing row otherwise. -/
theorem C5_record_lifecycle (s : StorageState) (items : List TrendItem) (now : Nat)
    (hconf : s.configured = true) (hnd : (items.map keyOf).Nodup) :
    (∀ (k : String × String) (r : StoredRecord),
      lookupTbl s.table k = some r →
      ∃ r2, lookupTbl ((upsert_items s items now).2).table k = some r2
        ∧ r2.first_seen_at = r.first_seen_at)
    ∧ (∀ it ∈ items,
        lookupTbl ((upsert_items s items now).2).table (keyOf it)
          = some (rowData it now
              (match lookupTbl s.table (keyOf it) with
               | some r => r.first_seen_at
               | none => now))) := by
  by_cases hempty : items = []
  · subst hempty
    refine ⟨?_, ?_⟩
    · intro k r h
      exact ⟨r, by simpa [upsert_items] using h, rfl⟩
    · intro it h
      cases h
  · have hs1 : (upsert_items s items now).2
      = { configured := s.configured, table := (upsertList s.table items now).1 } := by
      unfold upsert_items
      rw [if_neg (by simp [hconf, hempty])]
    rw [hs1]
    exact ⟨fun k r h => upsertList_pres items s.table now k r h,
           fun it hit => upsertList_final_row items s.table now hnd it hit⟩

/-- C5 (witness): the lifecycle theorem on a concrete store already holding
the item's key with `first_seen_at = 3`: the re-upsert at time 9 keeps
`first_seen_at = 3` and refreshes `last_seen_at` to 9. -/
theorem C5_record_lifecycle_witness :
    (StorageState.mk true [(keyOf sampleHnItem, rowData sampleHnItem 3 3)]).configured = true
    ∧ ([sampleHnItem].map keyOf).Nodup
    ∧ ((∀ (k : String × String) (r : StoredRecord),
        lookupTbl (StorageState.mk true
            [(keyOf sampleHnItem, rowData sampleHnItem 3 3)]).table k = some r →
        ∃ r2, lookupTbl ((upsert_items
              (StorageState.mk true [(keyOf sampleHnItem, rowData sampleHnItem 3 3)])
              [sampleHnItem] 9).2).table k = some r2
          ∧ r2.first_seen_at = r.first_seen_at)
      ∧ (∀ it ∈ [sampleHnItem],
          lookupTbl ((upsert_items
              (StorageState.mk true [(keyOf sampleHnItem, rowData sampleHnItem 3 3)])
              [sampleHnItem] 9).2).table (keyOf it)
            = some (rowData it 9
                (match lookupTbl (StorageState.mk true
                    [(keyOf sampleHnItem, rowData sampleHnItem 3 3)]).table (keyOf it) with
                 | some r => r.first_seen_at
                 | none => 9)))) :=
  ⟨rfl, by decide,
   C5_record_lifecycle
     (StorageState.mk true [(keyOf sampleHnItem, rowData sampleHnItem 3 3)])
     [sampleHnItem] 9 rfl (by decide)⟩

end TrendSieve
